import Mathlib

/-!
Shallow embedding of the Holen diagram editor's core: the diagram data
model and mutation store (`src/store/diagramStore.ts`, here `part_010`),
and the two orthogonal connector routers (`part_005`, `part_006`).
JavaScript numbers are modelled as exact rationals, `string` as `String`,
`T | null` and optional fields as `Option`, and the uuid generator as an
explicitly supplied fresh id.  The zustand store is modelled as a pure
state-transition function on a `DiagramStore` record; `localStorage`
writes are external I/O and are omitted (they do not touch store state).
-/

/-- Text size enumeration from `types/diagram.ts` (`xs | sm | base | lg | xl`). -/
inductive FontSize where
  | xs | sm | base | lg | xl
deriving DecidableEq

/-- Text alignment enumeration (`left | center | right`). -/
inductive Align where
  | left | center | right
deriving DecidableEq

/-- Border line style (`solid | dashed | dotted`). -/
inductive BorderKind where
  | solid | dashed | dotted
deriving DecidableEq

/-- Corner-radius bucket (`none | sm | md | lg | full`). -/
inductive RadiusKind where
  | nothing | sm | md | lg | full
deriving DecidableEq

/-- Shadow bucket (`none | sm | md | lg`). -/
inductive ShadowKind where
  | nothing | sm | md | lg
deriving DecidableEq

/-- `NodeStyle` from `types/diagram.ts`. -/
structure NodeStyle where
  fill : String
  border : String
  textColor : String
  badgeFill : String
  badgeTextColor : String
deriving DecidableEq

/-- `TextStyle` from `types/diagram.ts`. -/
structure TextStyle where
  bold : Bool
  italic : Bool
  underline : Bool
  fontSize : FontSize
  align : Align
deriving DecidableEq

/-- `BoxStyle` from `types/diagram.ts`; `borderWidth` is `1 | 2 | 3 | 4`. -/
structure BoxStyle where
  borderWidth : Nat
  borderStyle : BorderKind
  borderRadius : RadiusKind
  shadow : ShadowKind
deriving DecidableEq

/-- `BadgeConfig` from `types/diagram.ts`. -/
structure BadgeConfig where
  offsetX : ℚ
  offsetY : ℚ
  width : ℚ
  height : ℚ
deriving DecidableEq

/-- A position `{ x, y }` in diagram space. -/
structure Position where
  x : ℚ
  y : ℚ
deriving DecidableEq

/-- `DiagramNode` from `types/diagram.ts`; optional fields become `Option`. -/
structure DiagramNode where
  id : String
  parentId : Option String
  title : String
  subtitle : Option String
  badge : Option String
  badgeConfig : Option BadgeConfig
  style : NodeStyle
  textStyle : Option TextStyle
  boxStyle : Option BoxStyle
  width : ℚ
  height : ℚ
  position : Position
deriving DecidableEq

/-- Edge rendering type (`straight | smoothstep | step`). -/
inductive EdgeType where
  | straight | smoothstep | step
deriving DecidableEq

/-- Modelled from the spec: the optional visual style of an edge
(`EdgeStyle` is imported by the store from a types module that is not in
the source snapshot; per the spec an edge carries an optional visual
style with stroke color, width and animation flag). -/
structure EdgeStyle where
  stroke : String
  strokeWidth : ℚ
  animated : Bool
deriving DecidableEq

/-- Modelled from the spec: the default edge style constant
(`DEFAULT_EDGE_STYLE`) attached by `deriveEdges` to every derived edge.
Its field values are irrelevant to every claim; only that it is one
fixed constant matters. -/
def DEFAULT_EDGE_STYLE : EdgeStyle :=
  { stroke := "#64748b", strokeWidth := 2, animated := false }

/-- `DiagramEdge` as the store builds it: id, endpoints, rendering type
and the default visual style. -/
structure DiagramEdge where
  id : String
  source : String
  target : String
  type : EdgeType
  style : EdgeStyle
deriving DecidableEq

/-- `DEFAULT_TEXT_STYLE` from `types/diagram.ts`. -/
def DEFAULT_TEXT_STYLE : TextStyle :=
  { bold := false, italic := false, underline := false
    fontSize := .sm, align := .center }

/-- `DEFAULT_BOX_STYLE` from `types/diagram.ts`. -/
def DEFAULT_BOX_STYLE : BoxStyle :=
  { borderWidth := 2, borderStyle := .solid, borderRadius := .sm, shadow := .sm }

/-- `DEFAULT_NODE_STYLE` from `types/diagram.ts` (`COLOR_PRESETS[0].style`,
the Light Blue preset). -/
def DEFAULT_NODE_STYLE : NodeStyle :=
  { fill := "#d4e8f2", border := "#333333", textColor := "#000000"
    badgeFill := "#c0c0c0", badgeTextColor := "#333333" }

/-- One undo/redo snapshot (`HistoryState` in `diagramStore.ts`). -/
structure HistoryState where
  nodes : List DiagramNode
  edges : List DiagramEdge
deriving DecidableEq

/-- The zustand store state of `diagramStore.ts`. -/
structure DiagramStore where
  nodes : List DiagramNode
  edges : List DiagramEdge
  selectedNodeId : Option String
  selectedNodeIds : List String
  selectedEdgeId : Option String
  diagramName : String
  history : List HistoryState
  historyIndex : Int
deriving DecidableEq

/-- The initial store state from `create<DiagramStore>(...)`. -/
def emptyStore : DiagramStore :=
  { nodes := [], edges := [], selectedNodeId := none, selectedNodeIds := []
    selectedEdgeId := none, diagramName := "Untitled Diagram"
    history := [], historyIndex := -1 }

/-- `deriveEdges` from `diagramStore.ts`: one edge per node whose
`parentId` is non-null, with id `edge-<parentId>-<id>`.  The TS code
filters and then maps with a non-null assertion on `parentId`; on the
filtered list `Option.getD` never falls back to its default. -/
def deriveEdges (nodes : List DiagramNode) : List DiagramEdge :=
  (nodes.filter (fun n => n.parentId ≠ none)).map (fun n =>
    { id := "edge-" ++ n.parentId.getD "" ++ "-" ++ n.id
      source := n.parentId.getD ""
      target := n.id
      type := .smoothstep
      style := DEFAULT_EDGE_STYLE })

/-- `createNode` from `diagramStore.ts`.  `uuidv4()` is modelled as the
explicitly supplied `newId`; the TS default arguments are applied at
each call site. -/
def createNode (newId : String) (parentId : Option String) (title : String)
    (style : NodeStyle) (textStyle : TextStyle) (boxStyle : BoxStyle) :
    DiagramNode :=
  { id := newId, parentId := parentId, title := title
    subtitle := some "", badge := some "", badgeConfig := none
    style := style, textStyle := some textStyle, boxStyle := some boxStyle
    width := 160, height := 80, position := { x := 0, y := 0 } }

/-- `getNodeById` computed accessor. -/
def getNodeById (s : DiagramStore) (id : String) : Option DiagramNode :=
  s.nodes.find? (fun n => n.id = id)

/-- `getChildNodes` computed accessor. -/
def getChildNodes (nodes : List DiagramNode) (parentId : String) :
    List DiagramNode :=
  nodes.filter (fun n => n.parentId = some parentId)

/-- A `Partial<DiagramNode>` update object: every field optionally present. -/
structure NodeUpdates where
  id : Option String := none
  parentId : Option (Option String) := none
  title : Option String := none
  subtitle : Option (Option String) := none
  badge : Option (Option String) := none
  badgeConfig : Option (Option BadgeConfig) := none
  style : Option NodeStyle := none
  textStyle : Option (Option TextStyle) := none
  boxStyle : Option (Option BoxStyle) := none
  width : Option ℚ := none
  height : Option ℚ := none
  position : Option Position := none
deriving DecidableEq

/-- The object spread `{ ...n, ...updates }` for nodes. -/
def applyNodeUpdates (n : DiagramNode) (u : NodeUpdates) : DiagramNode :=
  { id := u.id.getD n.id, parentId := u.parentId.getD n.parentId
    title := u.title.getD n.title, subtitle := u.subtitle.getD n.subtitle
    badge := u.badge.getD n.badge
    badgeConfig := u.badgeConfig.getD n.badgeConfig
    style := u.style.getD n.style, textStyle := u.textStyle.getD n.textStyle
    boxStyle := u.boxStyle.getD n.boxStyle, width := u.width.getD n.width
    height := u.height.getD n.height, position := u.position.getD n.position }

/-- A `Partial<DiagramEdge>` update object. -/
structure EdgeUpdates where
  id : Option String := none
  source : Option String := none
  target : Option String := none
  type : Option EdgeType := none
  style : Option EdgeStyle := none
deriving DecidableEq

/-- The object spread `{ ...e, ...updates }` for edges. -/
def applyEdgeUpdates (e : DiagramEdge) (u : EdgeUpdates) : DiagramEdge :=
  { id := u.id.getD e.id, source := u.source.getD e.source
    target := u.target.getD e.target, type := u.type.getD e.type
    style := u.style.getD e.style }

/-- `saveToHistory`: truncate the history after the cursor, append a deep
snapshot of the current `(nodes, edges)`, evict the oldest entry beyond
50, and point the cursor at the newest entry.  `history.slice(0,
historyIndex + 1)` is `take` with the JS clamping of a negative bound,
and `shift()` is `drop 1`. -/
def saveToHistory (s : DiagramStore) : DiagramStore :=
  let pushed := s.history.take (s.historyIndex + 1).toNat ++
    [{ nodes := s.nodes, edges := s.edges : HistoryState }]
  let newHistory := if pushed.length > 50 then pushed.drop 1 else pushed
  { s with history := newHistory, historyIndex := (newHistory.length : Int) - 1 }

/-- `undo`: when the cursor is past the oldest entry, restore the
snapshot before the cursor and move the cursor back.  In every state the
store itself produces, `history[historyIndex - 1]` exists whenever
`historyIndex > 0`; the unreachable missing-entry case is modelled as a
no-op. -/
def undo (s : DiagramStore) : DiagramStore :=
  if s.historyIndex > 0 then
    match s.history.get? (s.historyIndex - 1).toNat with
    | some prevState =>
      { s with
        nodes := prevState.nodes
        edges := prevState.edges
        historyIndex := s.historyIndex - 1 }
    | none => s
  else s

/-- `redo`: when the cursor is before the newest entry, restore the
snapshot after the cursor and advance the cursor.  As in `undo`, the
missing-entry case is unreachable and modelled as a no-op. -/
def redo (s : DiagramStore) : DiagramStore :=
  if s.historyIndex < (s.history.length : Int) - 1 then
    match s.history.get? (s.historyIndex + 1).toNat with
    | some nextState =>
      { s with
        nodes := nextState.nodes
        edges := nextState.edges
        historyIndex := s.historyIndex + 1 }
    | none => s
  else s

/-- `setSelectedNode`: sets the single selection and syncs the
multi-selection list.  It does not touch `selectedEdgeId`. -/
def setSelectedNode (id : Option String) (s : DiagramStore) : DiagramStore :=
  { s with
    selectedNodeId := id
    selectedNodeIds := match id with | some i => [i] | none => [] }

/-- `setSelectedNodes` bulk selection setter. -/
def setSelectedNodes (ids : List String) (s : DiagramStore) : DiagramStore :=
  { s with
    selectedNodeIds := ids
    selectedNodeId := match ids with | [] => none | i :: _ => some i }

/-- `toggleNodeSelection`. -/
def toggleNodeSelection (id : String) (s : DiagramStore) : DiagramStore :=
  let newIds := if s.selectedNodeIds.contains id
    then s.selectedNodeIds.filter (fun nid => nid ≠ id)
    else s.selectedNodeIds ++ [id]
  { s with
    selectedNodeIds := newIds
    selectedNodeId := match newIds with | [] => none | i :: _ => some i }

/-- `addToSelection`: union keeping first occurrences (JS `Set` insertion
order). -/
def addToSelection (ids : List String) (s : DiagramStore) : DiagramStore :=
  let newIds := (s.selectedNodeIds ++ ids).eraseDups
  { s with
    selectedNodeIds := newIds
    selectedNodeId := match newIds with | [] => none | i :: _ => some i }

/-- `clearSelection`. -/
def clearSelection (s : DiagramStore) : DiagramStore :=
  { s with selectedNodeId := none, selectedNodeIds := [] }

/-- `addRootNode`: snapshot history, create a root node at (400, 50),
append it, re-derive edges and select it. -/
def addRootNode (newId : String) (s : DiagramStore) : DiagramStore :=
  let s1 := saveToHistory s
  let node := { createNode newId none "Root Node" DEFAULT_NODE_STYLE
      DEFAULT_TEXT_STYLE DEFAULT_BOX_STYLE with
    position := { x := 400, y := 50 } }
  { s1 with
    nodes := s1.nodes ++ [node]
    edges := deriveEdges (s1.nodes ++ [node])
    selectedNodeId := some node.id }

/-- `addChildNode`: snapshot history first, then look up the parent;
return early (history already mutated) if it does not exist; otherwise
append a child inheriting the parent's `style` only, positioned at
(parent.x, parent.y + 120). -/
def addChildNode (newId parentId : String) (s : DiagramStore) : DiagramStore :=
  let s1 := saveToHistory s
  match getNodeById s1 parentId with
  | none => s1
  | some parent =>
    let node := { createNode newId (some parentId) "Child Node" parent.style
        DEFAULT_TEXT_STYLE DEFAULT_BOX_STYLE with
      position := { x := parent.position.x, y := parent.position.y + 120 } }
    { s1 with
      nodes := s1.nodes ++ [node]
      edges := deriveEdges (s1.nodes ++ [node])
      selectedNodeId := some node.id }

/-- `addSiblingNode`: snapshot history first, then look up the sibling;
return early if it does not exist; otherwise append a sibling sharing
the sibling's `parentId` and `style`, positioned at (sibling.x + 180,
sibling.y). -/
def addSiblingNode (newId siblingId : String) (s : DiagramStore) :
    DiagramStore :=
  let s1 := saveToHistory s
  match getNodeById s1 siblingId with
  | none => s1
  | some sibling =>
    let node := { createNode newId sibling.parentId "Sibling Node"
        sibling.style DEFAULT_TEXT_STYLE DEFAULT_BOX_STYLE with
      position := { x := sibling.position.x + 180, y := sibling.position.y } }
    { s1 with
      nodes := s1.nodes ++ [node]
      edges := deriveEdges (s1.nodes ++ [node])
      selectedNodeId := some node.id }

/-- `updateNode`: snapshot history, shallow-merge the updates into the
matching node.  Edges are NOT re-derived. -/
def updateNode (id : String) (u : NodeUpdates) (s : DiagramStore) :
    DiagramStore :=
  let s1 := saveToHistory s
  { s1 with
    nodes := s1.nodes.map (fun n =>
      if n.id = id then applyNodeUpdates n u else n) }

/-- `updateSelectedNodes`: no-op on empty selection, otherwise snapshot
history and shallow-merge the updates into every selected node.  Edges
are NOT re-derived. -/
def updateSelectedNodes (u : NodeUpdates) (s : DiagramStore) : DiagramStore :=
  if s.selectedNodeIds = [] then s
  else
    let s1 := saveToHistory s
    { s1 with
      nodes := s1.nodes.map (fun n =>
        if s1.selectedNodeIds.contains n.id then applyNodeUpdates n u else n) }

/-- `collectDescendants` from `deleteNode`: depth-first reachability walk
over `parentId` links.  The TS recursion is unbounded and relies on the
forest shape for termination; here it carries explicit fuel, and the
store passes `nodes.length`, which is proved sufficient on forest
inputs. -/
def collectDescendants (nodes : List DiagramNode) :
    Nat → String → List String
  | 0, nodeId => [nodeId]
  | fuel + 1, nodeId =>
    nodeId :: ((getChildNodes nodes nodeId).map
      (fun child => collectDescendants nodes fuel child.id)).flatten

/-- `deleteNode`: snapshot history, collect the descendant closure of
`id`, remove every collected node, re-derive edges, and drop removed ids
from both selection fields. -/
def deleteNode (id : String) (s : DiagramStore) : DiagramStore :=
  let s1 := saveToHistory s
  let nodesToDelete := collectDescendants s1.nodes s1.nodes.length id
  let newNodes := s1.nodes.filter (fun n => ¬ nodesToDelete.contains n.id)
  { s1 with
    nodes := newNodes
    edges := deriveEdges newNodes
    selectedNodeId := match s1.selectedNodeId with
      | some sid => if nodesToDelete.contains sid then none else some sid
      | none => none
    selectedNodeIds := s1.selectedNodeIds.filter
      (fun nid => ¬ nodesToDelete.contains nid) }

/-- `deleteSelectedNodes`: no-op on empty selection, otherwise delete the
descendant closure of every selected id and clear the selection. -/
def deleteSelectedNodes (s : DiagramStore) : DiagramStore :=
  if s.selectedNodeIds = [] then s
  else
    let s1 := saveToHistory s
    let nodesToDelete := (s1.selectedNodeIds.map
      (collectDescendants s1.nodes s1.nodes.length)).flatten
    let newNodes := s1.nodes.filter (fun n => ¬ nodesToDelete.contains n.id)
    { s1 with
      nodes := newNodes
      edges := deriveEdges newNodes
      selectedNodeId := none
      selectedNodeIds := [] }

/-- `moveSelectedNodes`: live drag update; offsets every selected node's
position without touching history. -/
def moveSelectedNodes (deltaX deltaY : ℚ) (s : DiagramStore) : DiagramStore :=
  if s.selectedNodeIds = [] then s
  else
    { s with
      nodes := s.nodes.map (fun n =>
        if s.selectedNodeIds.contains n.id then
          { n with
            position := { x := n.position.x + deltaX
                          y := n.position.y + deltaY } }
        else n) }

/-- `setSelectedEdge`: selects the edge and clears the node selection. -/
def setSelectedEdge (id : Option String) (s : DiagramStore) : DiagramStore :=
  { s with
    selectedEdgeId := id
    selectedNodeId := none
    selectedNodeIds := [] }

/-- `updateEdge`: snapshot history and shallow-merge the updates into the
matching edge, editing the `edges` list directly. -/
def updateEdge (id : String) (u : EdgeUpdates) (s : DiagramStore) :
    DiagramStore :=
  let s1 := saveToHistory s
  { s1 with
    edges := s1.edges.map (fun e =>
      if e.id = id then applyEdgeUpdates e u else e) }

/-- `deleteEdge`: snapshot history first, then look up the edge; return
early if it does not exist; otherwise null out the target node's
`parentId`, drop the edge from the list and clear the edge selection. -/
def deleteEdge (id : String) (s : DiagramStore) : DiagramStore :=
  let s1 := saveToHistory s
  match s1.edges.find? (fun e => e.id = id) with
  | none => s1
  | some edge =>
    { s1 with
      nodes := s1.nodes.map (fun n =>
        if n.id = edge.target then { n with parentId := none } else n)
      edges := s1.edges.filter (fun e => e.id ≠ id)
      selectedEdgeId := none }

/-- `setNodePositions`: bulk position write from the layout adapter; no
history entry. -/
def setNodePositions (positions : List (String × ℚ × ℚ)) (s : DiagramStore) :
    DiagramStore :=
  { s with
    nodes := s.nodes.map (fun n =>
      match positions.find? (fun p => p.1 = n.id) with
      | some p => { n with position := { x := p.2.1, y := p.2.2 } }
      | none => n) }

/-- `setDiagramName`. -/
def setDiagramName (name : String) (s : DiagramStore) : DiagramStore :=
  { s with diagramName := name }

/-- `clearDiagram`: reset everything including history. -/
def clearDiagram (s : DiagramStore) : DiagramStore :=
  { s with
    nodes := []
    edges := []
    selectedNodeId := none
    selectedNodeIds := []
    selectedEdgeId := none
    diagramName := "Untitled Diagram"
    history := []
    historyIndex := -1 }

/-- `loadDiagram`: replace nodes/edges/name and reset the history. -/
def loadDiagram (nodes : List DiagramNode) (edges : List DiagramEdge)
    (name : String) (s : DiagramStore) : DiagramStore :=
  { s with
    nodes := nodes
    edges := edges
    diagramName := name
    selectedNodeId := none
    history := []
    historyIndex := -1 }

/-- The public mutation API of the store, as an operation alphabet; the
`add*` constructors carry the id the uuid generator would produce. -/
inductive StoreOp where
  | setSelectedNode (id : Option String)
  | setSelectedNodes (ids : List String)
  | toggleNodeSelection (id : String)
  | addToSelection (ids : List String)
  | clearSelection
  | addRootNode (newId : String)
  | addChildNode (newId parentId : String)
  | addSiblingNode (newId siblingId : String)
  | updateNode (id : String) (u : NodeUpdates)
  | updateSelectedNodes (u : NodeUpdates)
  | deleteNode (id : String)
  | deleteSelectedNodes
  | moveSelectedNodes (dx dy : ℚ)
  | setSelectedEdge (id : Option String)
  | updateEdge (id : String) (u : EdgeUpdates)
  | deleteEdge (id : String)
  | setNodePositions (ps : List (String × ℚ × ℚ))
  | setDiagramName (name : String)
  | clearDiagram
  | loadDiagram (nodes : List DiagramNode) (edges : List DiagramEdge)
      (name : String)
  | undo
  | redo

/-- Interpret one store operation. -/
def applyOp (op : StoreOp) (s : DiagramStore) : DiagramStore :=
  match op with
  | .setSelectedNode id => setSelectedNode id s
  | .setSelectedNodes ids => setSelectedNodes ids s
  | .toggleNodeSelection id => toggleNodeSelection id s
  | .addToSelection ids => addToSelection ids s
  | .clearSelection => clearSelection s
  | .addRootNode newId => addRootNode newId s
  | .addChildNode newId parentId => addChildNode newId parentId s
  | .addSiblingNode newId siblingId => addSiblingNode newId siblingId s
  | .updateNode id u => updateNode id u s
  | .updateSelectedNodes u => updateSelectedNodes u s
  | .deleteNode id => deleteNode id s
  | .deleteSelectedNodes => deleteSelectedNodes s
  | .moveSelectedNodes dx dy => moveSelectedNodes dx dy s
  | .setSelectedEdge id => setSelectedEdge id s
  | .updateEdge id u => updateEdge id u s
  | .deleteEdge id => deleteEdge id s
  | .setNodePositions ps => setNodePositions ps s
  | .setDiagramName name => setDiagramName name s
  | .clearDiagram => clearDiagram s
  | .loadDiagram nodes edges name => loadDiagram nodes edges name s
  | .undo => undo s
  | .redo => redo s

/-- Run a sequence of store operations. -/
def applyOps (ops : List StoreOp) (s : DiagramStore) : DiagramStore :=
  ops.foldl (fun acc op => applyOp op acc) s

/-- A rendered react-flow node as the routers see it: position plus
measured or declared size, each possibly absent. -/
structure FlowNode where
  id : String
  position : Position
  measuredWidth : Option ℚ
  measuredHeight : Option ℚ
  width : Option ℚ
  height : Option ℚ
deriving DecidableEq

/-- JS `a || b` on an optional number: falls back when the value is
absent or `0` (the only falsy number arising here). -/
def jsOrQ (a : Option ℚ) (b : ℚ) : ℚ :=
  match a with
  | some v => if v = 0 then b else v
  | none => b

/-- One SVG path command with exact rational coordinates; the TS code
serialises these to a string, which is pure formatting. -/
inductive PathCmd where
  | move (x y : ℚ)
  | line (x y : ℚ)
  | quad (cx cy x y : ℚ)
deriving DecidableEq

namespace SmartPath

/-- `NodeBounds` from the smart-edge router (`part_005`). -/
structure NodeBounds where
  id : String
  left : ℚ
  right : ℚ
  top : ℚ
  bottom : ℚ
  centerX : ℚ
  centerY : ℚ
deriving DecidableEq

/-- `getNodeBounds`: bounding boxes of all nodes except the excluded
endpoints, padded by 5 units, with size fallbacks
`measured?.width || width || 180` and `measured?.height || height || 100`. -/
def getNodeBounds (nodes : List FlowNode) (excludeIds : List String) :
    List NodeBounds :=
  (nodes.filter (fun n => ¬ excludeIds.contains n.id)).map (fun n =>
    let width := jsOrQ n.measuredWidth (jsOrQ n.width 180)
    let height := jsOrQ n.measuredHeight (jsOrQ n.height 100)
    { id := n.id
      left := n.position.x - 5
      right := n.position.x + width + 5
      top := n.position.y - 5
      bottom := n.position.y + height + 5
      centerX := n.position.x + width / 2
      centerY := n.position.y + height / 2 })

/-- `hLineIntersectsNodes`: a horizontal segment at `y` from `x1` to `x2`
meets a padded rectangle iff `y` is within its vertical extent and the
x-ranges overlap. -/
def hLineIntersectsNodes (y x1 x2 : ℚ) (nodes : List NodeBounds) : Bool :=
  let minX := min x1 x2
  let maxX := max x1 x2
  nodes.any (fun n =>
    decide (y ≥ n.top ∧ y ≤ n.bottom ∧ maxX ≥ n.left ∧ minX ≤ n.right))

/-- `vLineIntersectsNodes`: the symmetric test for a vertical segment. -/
def vLineIntersectsNodes (x y1 y2 : ℚ) (nodes : List NodeBounds) : Bool :=
  let minY := min y1 y2
  let maxY := max y1 y2
  nodes.any (fun n =>
    decide (x ≥ n.left ∧ x ≤ n.right ∧ maxY ≥ n.top ∧ minY ≤ n.bottom))

/-- The `for` loop of `findClearY`: per offset, try up (when allowed)
then down (when allowed); fall back to the preferred y when the offsets
are exhausted. -/
def clearYScan (x1 x2 preferredY : ℚ) (nodes : List NodeBounds)
    (searchUp searchDown : Bool) : List ℚ → ℚ
  | [] => preferredY
  | offset :: rest =>
    if searchUp && !hLineIntersectsNodes (preferredY - offset) x1 x2 nodes
      then preferredY - offset
    else if searchDown && !hLineIntersectsNodes (preferredY + offset) x1 x2 nodes
      then preferredY + offset
    else clearYScan x1 x2 preferredY nodes searchUp searchDown rest

/-- The offset sequence `step, 2*step, ...` of a bounded search loop. -/
def stepOffsets (step : ℚ) (count : Nat) : List ℚ :=
  (List.range count).map (fun i => step * ((i : ℚ) + 1))

/-- `findClearY` (`part_005`): step 15 up to maxOffset 400, i.e. offsets
15, 30, ..., 390 (26 of them). -/
def findClearY (x1 x2 preferredY : ℚ) (nodes : List NodeBounds)
    (searchUp searchDown : Bool) : ℚ :=
  if !hLineIntersectsNodes preferredY x1 x2 nodes then preferredY
  else clearYScan x1 x2 preferredY nodes searchUp searchDown (stepOffsets 15 26)

/-- The `for` loop of `findClearX`: per offset, try left then right. -/
def clearXScan (y1 y2 preferredX : ℚ) (nodes : List NodeBounds) :
    List ℚ → ℚ
  | [] => preferredX
  | offset :: rest =>
    if !vLineIntersectsNodes (preferredX - offset) y1 y2 nodes
      then preferredX - offset
    else if !vLineIntersectsNodes (preferredX + offset) y1 y2 nodes
      then preferredX + offset
    else clearXScan y1 y2 preferredX nodes rest

/-- `findClearX` (`part_005`): step 15 up to maxOffset 400. -/
def findClearX (y1 y2 preferredX : ℚ) (nodes : List NodeBounds) : ℚ :=
  if !vLineIntersectsNodes preferredX y1 y2 nodes then preferredX
  else clearXScan y1 y2 preferredX nodes (stepOffsets 15 26)

/-- `generateSmartPath` (`part_005`): orthogonal path from source to
target avoiding the given padded rectangles.  `0.3` is the exact
rational 3/10 (the branch decisions of the claims are far from the
float/rational gap). -/
def generateSmartPath (sourceX sourceY targetX targetY : ℚ)
    (nodes : List NodeBounds) (borderRadius : ℚ) : List PathCmd :=
  let r := min borderRadius 8
  let goingDown := decide (targetY > sourceY)
  let gap := if goingDown then targetY - sourceY else sourceY - targetY
  if abs (sourceX - targetX) < 10 then
    [.move sourceX sourceY, .line targetX targetY]
  else
    let midY := if goingDown then sourceY + min (gap * (3 / 10)) 30
                else sourceY - min (gap * (3 / 10)) 30
    let clearMidY := findClearY (min sourceX targetX) (max sourceX targetX)
      midY nodes (!goingDown) goingDown
    let sourceVerticalClear := !vLineIntersectsNodes sourceX sourceY clearMidY nodes
    let targetVerticalClear := !vLineIntersectsNodes targetX clearMidY targetY nodes
    if sourceVerticalClear && targetVerticalClear then
      let dir : ℚ := if sourceX < targetX then 1 else -1
      let vDir : ℚ := if goingDown then 1 else -1
      [.move sourceX sourceY
       , .line sourceX (clearMidY - r * vDir)
       , .quad sourceX clearMidY (sourceX + r * dir) clearMidY
       , .line (targetX - r * dir) clearMidY
       , .quad targetX clearMidY targetX (clearMidY + r * vDir)
       , .line targetX targetY]
    else
      let clearSourceX := findClearX sourceY clearMidY sourceX nodes
      let clearTargetX := findClearX clearMidY targetY targetX nodes
      let exitY := sourceY + (if goingDown then (15 : ℚ) else -15)
      let entryY := targetY + (if goingDown then (-15 : ℚ) else 15)
      let points :=
        [(sourceX, sourceY)]
        ++ (if clearSourceX ≠ sourceX then
              [(sourceX, exitY), (clearSourceX, exitY)] else [])
        ++ [(clearSourceX, clearMidY), (clearTargetX, clearMidY)]
        ++ (if clearTargetX ≠ targetX then
              [(clearTargetX, entryY), (targetX, entryY)] else [])
        ++ [(targetX, targetY)]
      match points with
      | [] => []
      | p :: rest => .move p.1 p.2 :: rest.map (fun q => PathCmd.line q.1 q.2)

end SmartPath

namespace OrgChartPath

/-- `NodeBounds` from the org-chart router (`part_006`). -/
structure NodeBounds where
  id : String
  left : ℚ
  right : ℚ
  top : ℚ
  bottom : ℚ
deriving DecidableEq

/-- `getNodeBounds` (`part_006`): same fallbacks and 5-unit padding as
the smart-edge router, without precomputed centers. -/
def getNodeBounds (nodes : List FlowNode) (excludeIds : List String) :
    List NodeBounds :=
  (nodes.filter (fun n => ¬ excludeIds.contains n.id)).map (fun n =>
    let width := jsOrQ n.measuredWidth (jsOrQ n.width 180)
    let height := jsOrQ n.measuredHeight (jsOrQ n.height 100)
    { id := n.id
      left := n.position.x - 5
      right := n.position.x + width + 5
      top := n.position.y - 5
      bottom := n.position.y + height + 5 })

/-- `hLineIntersectsNodes` (`part_006`). -/
def hLineIntersectsNodes (y x1 x2 : ℚ) (nodes : List NodeBounds) : Bool :=
  let minX := min x1 x2
  let maxX := max x1 x2
  nodes.any (fun n =>
    decide (y ≥ n.top ∧ y ≤ n.bottom ∧ maxX ≥ n.left ∧ minX ≤ n.right))

/-- The `for` loop of `findClearY` (`part_006`): per offset, the order of
the up/down probes follows `preferUp`. -/
def clearYScan (x1 x2 startY : ℚ) (nodes : List NodeBounds)
    (preferUp : Bool) : List ℚ → ℚ
  | [] => startY
  | offset :: rest =>
    if preferUp then
      if !hLineIntersectsNodes (startY - offset) x1 x2 nodes then startY - offset
      else if !hLineIntersectsNodes (startY + offset) x1 x2 nodes then startY + offset
      else clearYScan x1 x2 startY nodes preferUp rest
    else
      if !hLineIntersectsNodes (startY + offset) x1 x2 nodes then startY + offset
      else if !hLineIntersectsNodes (startY - offset) x1 x2 nodes then startY - offset
      else clearYScan x1 x2 startY nodes preferUp rest

/-- `findClearY` (`part_006`): step 10 up to maxOffset 300, i.e. offsets
10, 20, ..., 300 (30 of them). -/
def findClearY (x1 x2 startY : ℚ) (nodes : List NodeBounds)
    (preferUp : Bool) : ℚ :=
  if !hLineIntersectsNodes startY x1 x2 nodes then startY
  else clearYScan x1 x2 startY nodes preferUp (SmartPath.stepOffsets 10 30)

/-- `generateOrgChartPath` (`part_006`): straight down, horizontal bar,
straight down, with the bar kept near the source and shifted by
`findClearY` when it meets an obstacle.  `0.4` is the exact rational
4/10. -/
def generateOrgChartPath (sourceX sourceY targetX targetY : ℚ)
    (nodes : List NodeBounds) (spacing borderRadius : ℚ) : List PathCmd :=
  let r := min borderRadius 6
  let goingDown := decide (targetY > sourceY)
  if abs (sourceX - targetX) < 3 then
    [.move sourceX sourceY, .line targetX targetY]
  else
    let barY := if goingDown then
        min (sourceY + spacing) (sourceY + (targetY - sourceY) * (4 / 10))
      else
        max (sourceY - spacing) (sourceY - (sourceY - targetY) * (4 / 10))
    let barY := findClearY (min sourceX targetX) (max sourceX targetX)
      barY nodes (!goingDown)
    let goingRight := decide (targetX > sourceX)
    let dir : ℚ := if goingRight then 1 else -1
    if goingDown then
      let rClamped := min r (min (abs (barY - sourceY) / 2) (abs (targetY - barY) / 2))
      [.move sourceX sourceY
       , .line sourceX (barY - rClamped)
       , .quad sourceX barY (sourceX + rClamped * dir) barY
       , .line (targetX - rClamped * dir) barY
       , .quad targetX barY targetX (barY + rClamped)
       , .line targetX targetY]
    else
      let rClamped := min r (min (abs (sourceY - barY) / 2) (abs (barY - targetY) / 2))
      [.move sourceX sourceY
       , .line sourceX (barY + rClamped)
       , .quad sourceX barY (sourceX + rClamped * dir) barY
       , .line (targetX - rClamped * dir) barY
       , .quad targetX barY targetX (barY - rClamped)
       , .line targetX targetY]

end OrgChartPath

/-- The deterministic edge id `edge-<parentId>-<id>` a node contributes
to `deriveEdges`. -/
def edgeIdOf (n : DiagramNode) : String :=
  "edge-" ++ n.parentId.getD "" ++ "-" ++ n.id

/-- Child-ward reachability over `parentId` links: `Desc nodes root x`
holds when `x` is `root` itself or the id of a node whose parent chain
leads back to `root` through members of `nodes`. -/
inductive Desc (nodes : List DiagramNode) (root : String) : String → Prop
  | refl : Desc nodes root root
  | step {b : String} (n : DiagramNode) :
      Desc nodes root b → n ∈ nodes → n.parentId = some b →
      Desc nodes root n.id

/-- Length-indexed child-ward reachability, decomposed at the root: one
step to a child, then a path of `k` further steps. -/
inductive DescN (nodes : List DiagramNode) : String → String → Nat → Prop
  | refl (a : String) : DescN nodes a a 0
  | step {a x : String} {k : Nat} (n : DiagramNode) :
      n ∈ nodes → n.parentId = some a → DescN nodes n.id x k →
      DescN nodes a x (k + 1)

/-- A rank certificate entry for the forest shape: the node's parent (if
any) ranks strictly below the node, and the node's rank stays within
`bound`.  A finite forest admits such a rank (tree depth); a parent
cycle admits none. -/
def parentRankOk (r : String → Nat) (bound : Nat) (n : DiagramNode) : Bool :=
  match n.parentId with
  | none => true
  | some p => decide (r p < r n.id) && decide (r n.id ≤ bound)

/-- The child node `addChildNode` appends for a found parent. -/
def childNodeOf (parent : DiagramNode) (newId parentId : String) :
    DiagramNode :=
  { createNode newId (some parentId) "Child Node" parent.style
      DEFAULT_TEXT_STYLE DEFAULT_BOX_STYLE with
    position := { x := parent.position.x, y := parent.position.y + 120 } }

/-- The sibling node `addSiblingNode` appends for a found sibling. -/
def siblingNodeOf (sibling : DiagramNode) (newId : String) : DiagramNode :=
  { createNode newId sibling.parentId "Sibling Node" sibling.style
      DEFAULT_TEXT_STYLE DEFAULT_BOX_STYLE with
    position := { x := sibling.position.x + 180, y := sibling.position.y } }

/-- Test fixture: a bare node with the given id and parent. -/
def mkPlainNode (id : String) (parentId : Option String) : DiagramNode :=
  { id := id, parentId := parentId, title := id, subtitle := none
    badge := none, badgeConfig := none, style := DEFAULT_NODE_STYLE
    textStyle := none, boxStyle := none, width := 160, height := 80
    position := { x := 0, y := 0 } }

/-- Test fixture: root node `a`. -/
def rootA : DiagramNode := mkPlainNode "a" none

/-- Test fixture: node `b`, child of `a`. -/
def childB : DiagramNode := mkPlainNode "b" (some "a")

/-- Test fixture: a two-node store whose edges are freshly derived. -/
def storeAB : DiagramStore :=
  { emptyStore with
    nodes := [rootA, childB]
    edges := deriveEdges [rootA, childB] }

/-- Test fixture: the `Partial<DiagramNode>` update `{ parentId: null }`. -/
def detachUpdate : NodeUpdates := { parentId := some none }

/-- Test fixture: a non-default box style. -/
def fancyBox : BoxStyle :=
  { borderWidth := 3, borderStyle := .dashed, borderRadius := .lg, shadow := .md }

/-- Test fixture: a root node carrying the non-default box style. -/
def parentP : DiagramNode := { mkPlainNode "p" none with boxStyle := some fancyBox }

/-- Test fixture: a store holding only `parentP`. -/
def storeP : DiagramStore := { emptyStore with nodes := [parentP] }

/-- Test fixture: a store at the 50-snapshot cap with the cursor on the
newest entry. -/
def cappedStore : DiagramStore :=
  { emptyStore with
    history := List.replicate 50 { nodes := [], edges := [] }
    historyIndex := 49 }

/-- Test fixture: a rank certificate for `storeAB` (depth in the forest). -/
def rankAB : String → Nat := fun id => if id = "b" then 1 else 0

/-- Test fixture: a store that has been undone once: two snapshots, the
cursor on the older one. -/
def undoneStore : DiagramStore :=
  { emptyStore with
    history := [{ nodes := [], edges := [] }, { nodes := [rootA], edges := [] }]
    historyIndex := 0 }

/-- Scenario node A of the routing claim: x=100, y=0, w=160, h=80. -/
def nodeA : FlowNode :=
  { id := "A", position := { x := 100, y := 0 }
    measuredWidth := some 160, measuredHeight := some 80
    width := none, height := none }

/-- Scenario node B (child of A): x=300, y=200, w=160, h=80. -/
def nodeB : FlowNode :=
  { id := "B", position := { x := 300, y := 200 }
    measuredWidth := some 160, measuredHeight := some 80
    width := none, height := none }

/-- Scenario obstacle node C: x=150, y=90, w=160, h=80. -/
def nodeC : FlowNode :=
  { id := "C", position := { x := 150, y := 90 }
    measuredWidth := some 160, measuredHeight := some 80
    width := none, height := none }

/-- The padded obstacle set the smart-edge router sees for edge A→B:
only C, expanded to [145, 315] × [85, 175]. -/
def scenarioObstaclesSmart : List SmartPath.NodeBounds :=
  SmartPath.getNodeBounds [nodeA, nodeB, nodeC] ["A", "B"]

/-- The padded obstacle set the org-chart router sees for edge A→B. -/
def scenarioObstaclesOrg : List OrgChartPath.NodeBounds :=
  OrgChartPath.getNodeBounds [nodeA, nodeB, nodeC] ["A", "B"]

/-- C10: undo at the oldest entry (or with empty history) and redo at
the newest entry are complete no-ops: the whole store state, history
list and cursor included, is unchanged. -/
theorem undo_redo_at_bounds_noop (s : DiagramStore) :
    (s.historyIndex ≤ 0 → undo s = s) ∧
    (s.historyIndex = (s.history.length : Int) - 1 → redo s = s) := by
  constructor
  · intro h
    have hc : ¬ (s.historyIndex > 0) := by omega
    simp [undo, hc]
  · intro h
    have hc : ¬ (s.historyIndex < (s.history.length : Int) - 1) := by omega
    simp [redo, hc]

/-- Witness for C10 at the initial store (cursor -1, empty history). -/
theorem undo_redo_at_bounds_noop_witness :
    undo emptyStore = emptyStore ∧ redo emptyStore = emptyStore :=
  ⟨(undo_redo_at_bounds_noop emptyStore).1 (by decide),
   (undo_redo_at_bounds_noop emptyStore).2 (by decide)⟩

/-- C5 (amended): selecting an edge clears the node selection, but
`setSelectedNode` leaves `selectedEdgeId` untouched — mutual exclusion
holds only in the edge-to-node direction. -/
theorem selection_exclusivity_one_directional :
    (∀ s : DiagramStore, ∀ id : Option String,
      (setSelectedEdge id s).selectedNodeId = none ∧
      (setSelectedEdge id s).selectedNodeIds = []) ∧
    (∀ s : DiagramStore, ∀ id : Option String,
      (setSelectedNode id s).selectedEdgeId = s.selectedEdgeId) :=
  ⟨fun _ _ => ⟨rfl, rfl⟩, fun _ _ => rfl⟩

/-- C5 counterexample: selecting node "n" right after selecting edge "e"
leaves the edge selection in place, contradicting the claimed
node-to-edge clearing direction. -/
theorem select_node_keeps_edge_selection :
    (setSelectedNode (some "n") (setSelectedEdge (some "e") emptyStore)).selectedEdgeId
      = some "e" ∧
    (setSelectedNode (some "n") (setSelectedEdge (some "e") emptyStore)).selectedEdgeId
      ≠ none :=
  ⟨rfl, by decide⟩

/-- C2 (code bug): one edit from the empty store followed by one undo
does not restore the initial state — the undo is a complete no-op
because the post-edit state is never snapshotted and `undo` requires
`historyIndex > 0`. -/
theorem undo_after_single_edit_is_noop :
    undo (addRootNode "r" emptyStore) = addRootNode "r" emptyStore ∧
    (addRootNode "r" emptyStore).nodes ≠ ([] : List DiagramNode) := by
  exact ⟨by decide, by decide⟩

/-- C4 counterexample: `addChildNode` on a missing parent id leaves
nodes unchanged but still pushes a history snapshot and moves the
cursor, so the store state as a whole is not unchanged. -/
theorem invalid_id_op_mutates_history :
    (addChildNode "x" "nope" emptyStore).nodes = emptyStore.nodes ∧
    (addChildNode "x" "nope" emptyStore).history ≠ emptyStore.history ∧
    (addChildNode "x" "nope" emptyStore).historyIndex ≠ emptyStore.historyIndex :=
  ⟨rfl, by decide, by decide⟩

/-- C4 (amended): an operation on a missing id raises no exception and
leaves nodes, edges and selection unchanged, but it is exactly
`saveToHistory`: the history is truncated at the cursor and a snapshot
of the current state is appended, with the cursor moved to it. -/
theorem invalid_id_ops_only_snapshot_history (s : DiagramStore)
    (newId pid sid eid : String)
    (hp : getNodeById s pid = none)
    (hs : getNodeById s sid = none)
    (he : s.edges.find? (fun e => e.id = eid) = none) :
    addChildNode newId pid s = saveToHistory s ∧
    addSiblingNode newId sid s = saveToHistory s ∧
    deleteEdge eid s = saveToHistory s ∧
    (saveToHistory s).nodes = s.nodes ∧
    (saveToHistory s).edges = s.edges ∧
    (saveToHistory s).selectedNodeId = s.selectedNodeId ∧
    (saveToHistory s).selectedNodeIds = s.selectedNodeIds ∧
    (saveToHistory s).selectedEdgeId = s.selectedEdgeId := by
  refine ⟨?_, ?_, ?_, rfl, rfl, rfl, rfl, rfl⟩
  · dsimp only [addChildNode]
    rw [show getNodeById (saveToHistory s) pid = none from hp]
  · dsimp only [addSiblingNode]
    rw [show getNodeById (saveToHistory s) sid = none from hs]
  · dsimp only [deleteEdge]
    rw [show (saveToHistory s).edges.find? (fun e => e.id = eid) = none from he]

/-- Witness for C4 at the empty store with unknown ids. -/
theorem invalid_id_ops_only_snapshot_history_witness :
    getNodeById emptyStore "nope" = none ∧
    addChildNode "x" "nope" emptyStore = saveToHistory emptyStore :=
  ⟨rfl, (invalid_id_ops_only_snapshot_history emptyStore "x" "nope" "nope"
    "missing-edge" rfl rfl rfl).1⟩

/-- C6 counterexample: on the claimed scenario the org-chart router
(`generateOrgChartPath`, `part_006`, the variant whose default spacing
of 25 the scenario describes) shifts the bar UP to y = 75, above C's
padded top edge, not below C's bottom edge; its horizontal bar fails
`y ≥ 170`. -/
theorem orgchart_bar_escapes_upward :
    scenarioObstaclesOrg
      = [{ id := "C", left := 145, right := 315, top := 85, bottom := 175 }] ∧
    OrgChartPath.generateOrgChartPath 180 80 380 200 scenarioObstaclesOrg 25 4 =
      [PathCmd.move 180 80
       , PathCmd.line 180 (145 / 2)
       , PathCmd.quad 180 75 (365 / 2) 75
       , PathCmd.line (755 / 2) 75
       , PathCmd.quad 380 75 380 (155 / 2)
       , PathCmd.line 380 200] ∧
    ¬ ((75 : ℚ) ≥ 170) := by
  have hobs : scenarioObstaclesOrg
      = [{ id := "C", left := 145, right := 315, top := 85, bottom := 175 }] := by
    simp +decide only [scenarioObstaclesOrg, OrgChartPath.getNodeBounds,
      nodeA, nodeB, nodeC, jsOrQ, List.filter, List.map]
    norm_num
  refine ⟨hobs, ?_, by norm_num⟩
  rw [hobs]
  norm_num [OrgChartPath.generateOrgChartPath, OrgChartPath.findClearY,
    OrgChartPath.clearYScan, OrgChartPath.hLineIntersectsNodes,
    SmartPath.stepOffsets, List.range_succ, min_def, max_def]

/-- C6 (amended): the smart-edge router (`generateSmartPath`,
`part_005`) does place the long horizontal bar below C, at y = 185 ≥
170, clear of the obstacle (the bar spans x = 135 to x = 380); the
org-chart variant instead escapes upward, per the counterexample. -/
theorem smartpath_bar_below_obstacle :
    scenarioObstaclesSmart
      = [{ id := "C", left := 145, right := 315, top := 85, bottom := 175
           centerX := 230, centerY := 130 }] ∧
    SmartPath.generateSmartPath 180 80 380 200 scenarioObstaclesSmart 4 =
      [PathCmd.move 180 80, PathCmd.line 180 95, PathCmd.line 135 95
       , PathCmd.line 135 185, PathCmd.line 380 185, PathCmd.line 380 200] ∧
    (185 : ℚ) ≥ 170 ∧
    SmartPath.hLineIntersectsNodes 185 135 380 scenarioObstaclesSmart = false := by
  have hobs : scenarioObstaclesSmart
      = [{ id := "C", left := 145, right := 315, top := 85, bottom := 175
           centerX := 230, centerY := 130 }] := by
    simp +decide only [scenarioObstaclesSmart, SmartPath.getNodeBounds,
      nodeA, nodeB, nodeC, jsOrQ, List.filter, List.map]
    norm_num
  refine ⟨hobs, ?_, by norm_num, ?_⟩
  · rw [hobs]
    norm_num [SmartPath.generateSmartPath, SmartPath.findClearY,
      SmartPath.clearYScan, SmartPath.findClearX, SmartPath.clearXScan,
      SmartPath.hLineIntersectsNodes, SmartPath.vLineIntersectsNodes,
      SmartPath.stepOffsets, List.range_succ, min_def, max_def]
  · rw [hobs]
    norm_num [SmartPath.hLineIntersectsNodes]

/-- C7 counterexample: a parent with a non-default box style gets a
child whose box style is the default, not the parent's — box style is
not inherited. -/
theorem child_box_style_not_inherited :
    (addChildNode "c" "p" storeP).nodes = [parentP, childNodeOf parentP "c" "p"] ∧
    (childNodeOf parentP "c" "p").boxStyle = some DEFAULT_BOX_STYLE ∧
    parentP.boxStyle = some fancyBox ∧
    (childNodeOf parentP "c" "p").boxStyle ≠ parentP.boxStyle := by
  refine ⟨?_, rfl, rfl, by decide⟩
  dsimp only [addChildNode]
  rw [show getNodeById (saveToHistory storeP) "p" = some parentP from rfl]
  rfl

/-- C7 (amended): on an existing parent/sibling, `addChildNode` and
`addSiblingNode` append exactly one node carrying the supplied fresh id,
inheriting the invoking node's `style` (colors) — but receiving the
DEFAULT text and box styles, not the invoking node's — at the claimed
provisional position (child: same x, parent y + 120; sibling: sibling
x + 180, same y). -/
theorem add_child_sibling_amended (s : DiagramStore) (newId pid sid : String)
    (parent sibling : DiagramNode)
    (hp : getNodeById s pid = some parent)
    (hs : getNodeById s sid = some sibling)
    (hfresh : ∀ n ∈ s.nodes, n.id ≠ newId) :
    (addChildNode newId pid s).nodes = s.nodes ++ [childNodeOf parent newId pid] ∧
    (childNodeOf parent newId pid).id = newId ∧
    (childNodeOf parent newId pid).id ∉ s.nodes.map (fun n => n.id) ∧
    (childNodeOf parent newId pid).style = parent.style ∧
    (childNodeOf parent newId pid).boxStyle = some DEFAULT_BOX_STYLE ∧
    (childNodeOf parent newId pid).textStyle = some DEFAULT_TEXT_STYLE ∧
    (childNodeOf parent newId pid).position
      = { x := parent.position.x, y := parent.position.y + 120 } ∧
    (addSiblingNode newId sid s).nodes = s.nodes ++ [siblingNodeOf sibling newId] ∧
    (siblingNodeOf sibling newId).id = newId ∧
    (siblingNodeOf sibling newId).parentId = sibling.parentId ∧
    (siblingNodeOf sibling newId).style = sibling.style ∧
    (siblingNodeOf sibling newId).boxStyle = some DEFAULT_BOX_STYLE ∧
    (siblingNodeOf sibling newId).position
      = { x := sibling.position.x + 180, y := sibling.position.y } := by
  have hmem : (childNodeOf parent newId pid).id ∉ s.nodes.map (fun n => n.id) := by
    intro hin
    rcases List.mem_map.mp hin with ⟨n, hn, hidq⟩
    exact hfresh n hn hidq
  refine ⟨?_, rfl, hmem, rfl, rfl, rfl, rfl, ?_, rfl, rfl, rfl, rfl, rfl⟩
  · dsimp only [addChildNode]
    rw [show getNodeById (saveToHistory s) pid = some parent from hp]
    rfl
  · dsimp only [addSiblingNode]
    rw [show getNodeById (saveToHistory s) sid = some sibling from hs]
    rfl

/-- Witness for C7 on the one-node store `storeP`. -/
theorem add_child_sibling_amended_witness :
    getNodeById storeP "p" = some parentP ∧
    (addChildNode "c" "p" storeP).nodes = storeP.nodes ++ [childNodeOf parentP "c" "p"] ∧
    (addSiblingNode "c" "p" storeP).nodes = storeP.nodes ++ [siblingNodeOf parentP "c"] :=
  ⟨rfl
   , (add_child_sibling_amended storeP "c" "p" "p" parentP parentP rfl rfl
      (by decide)).1
   , (add_child_sibling_amended storeP "c" "p" "p" parentP parentP rfl rfl
      (by decide)).2.2.2.2.2.2.2.1⟩

/-- After `saveToHistory` the cursor points at the newest history entry. -/
theorem saveToHistory_topIndex (s : DiagramStore) :
    (saveToHistory s).historyIndex = ((saveToHistory s).history.length : Int) - 1 :=
  rfl

/-- `redo` is a no-op whenever the cursor is on the newest entry. -/
theorem redo_noop_of_top (s : DiagramStore)
    (h : s.historyIndex = (s.history.length : Int) - 1) : redo s = s := by
  have hc : ¬ (s.historyIndex < (s.history.length : Int) - 1) := by omega
  simp [redo, hc]

/-- When the history is within the cap and the cursor sits strictly
before the newest entry, `saveToHistory` does not evict: it is exactly
truncate-at-cursor plus append. -/
theorem saveToHistory_no_evict (s : DiagramStore)
    (hlen : s.history.length ≤ 50)
    (hidx : s.historyIndex < (s.history.length : Int) - 1) :
    (saveToHistory s).history
      = s.history.take (s.historyIndex + 1).toNat
        ++ [{ nodes := s.nodes, edges := s.edges }] := by
  have hc : ¬ ((s.history.take (s.historyIndex + 1).toNat
      ++ [{ nodes := s.nodes, edges := s.edges : HistoryState }]).length > 50) := by
    simp only [List.length_append, List.length_take, List.length_cons,
      List.length_nil]
    omega
  dsimp only [saveToHistory]
  rw [if_neg hc]

/-- `addRootNode` leaves the history exactly as `saveToHistory` built it. -/
theorem addRootNode_history (newId : String) (s : DiagramStore) :
    (addRootNode newId s).history = (saveToHistory s).history := rfl

/-- `addRootNode` leaves the cursor exactly as `saveToHistory` set it. -/
theorem addRootNode_index (newId : String) (s : DiagramStore) :
    (addRootNode newId s).historyIndex = (saveToHistory s).historyIndex := rfl

/-- `addChildNode` (both branches) keeps `saveToHistory`'s history. -/
theorem addChildNode_history (newId pid : String) (s : DiagramStore) :
    (addChildNode newId pid s).history = (saveToHistory s).history := by
  dsimp only [addChildNode]
  cases getNodeById (saveToHistory s) pid <;> rfl

/-- `addChildNode` (both branches) keeps `saveToHistory`'s cursor. -/
theorem addChildNode_index (newId pid : String) (s : DiagramStore) :
    (addChildNode newId pid s).historyIndex = (saveToHistory s).historyIndex := by
  dsimp only [addChildNode]
  cases getNodeById (saveToHistory s) pid <;> rfl

/-- `addSiblingNode` (both branches) keeps `saveToHistory`'s history. -/
theorem addSiblingNode_history (newId sid : String) (s : DiagramStore) :
    (addSiblingNode newId sid s).history = (saveToHistory s).history := by
  dsimp only [addSiblingNode]
  cases getNodeById (saveToHistory s) sid <;> rfl

/-- `addSiblingNode` (both branches) keeps `saveToHistory`'s cursor. -/
theorem addSiblingNode_index (newId sid : String) (s : DiagramStore) :
    (addSiblingNode newId sid s).historyIndex = (saveToHistory s).historyIndex := by
  dsimp only [addSiblingNode]
  cases getNodeById (saveToHistory s) sid <;> rfl

/-- `deleteEdge` (both branches) keeps `saveToHistory`'s history. -/
theorem deleteEdge_history (eid : String) (s : DiagramStore) :
    (deleteEdge eid s).history = (saveToHistory s).history := by
  dsimp only [deleteEdge]
  cases (saveToHistory s).edges.find? (fun e => e.id = eid) <;> rfl

/-- `deleteEdge` (both branches) keeps `saveToHistory`'s cursor. -/
theorem deleteEdge_index (eid : String) (s : DiagramStore) :
    (deleteEdge eid s).historyIndex = (saveToHistory s).historyIndex := by
  dsimp only [deleteEdge]
  cases (saveToHistory s).edges.find? (fun e => e.id = eid) <;> rfl

/-- `updateSelectedNodes` with a nonempty selection keeps
`saveToHistory`'s history and cursor. -/
theorem updateSelectedNodes_history (u : NodeUpdates) (s : DiagramStore)
    (h : s.selectedNodeIds ≠ []) :
    (updateSelectedNodes u s).history = (saveToHistory s).history ∧
    (updateSelectedNodes u s).historyIndex = (saveToHistory s).historyIndex := by
  dsimp only [updateSelectedNodes]
  rw [if_neg h]
  exact ⟨rfl, rfl⟩

/-- `deleteSelectedNodes` with a nonempty selection keeps
`saveToHistory`'s history and cursor. -/
theorem deleteSelectedNodes_history (s : DiagramStore)
    (h : s.selectedNodeIds ≠ []) :
    (deleteSelectedNodes s).history = (saveToHistory s).history ∧
    (deleteSelectedNodes s).historyIndex = (saveToHistory s).historyIndex := by
  dsimp only [deleteSelectedNodes]
  rw [if_neg h]
  exact ⟨rfl, rfl⟩

/-- C8: once undo has moved the cursor strictly before the newest
snapshot, the next edit operation truncates the history at the cursor
before appending its own snapshot — the previously redoable states are
no longer in the list — and `redo` immediately after the edit is a
no-op.  All nine history-writing operations are covered (the two
selection-batch ones fire only on a nonempty selection). -/
theorem edit_after_undo_truncates_future (s : DiagramStore)
    (hlen : s.history.length ≤ 50)
    (hidx : s.historyIndex < (s.history.length : Int) - 1)
    (newId pid sid nid eid : String) (u : NodeUpdates) (eu : EdgeUpdates) :
    (saveToHistory s).history
      = s.history.take (s.historyIndex + 1).toNat
        ++ [{ nodes := s.nodes, edges := s.edges }] ∧
    (addRootNode newId s).history = (saveToHistory s).history ∧
    redo (addRootNode newId s) = addRootNode newId s ∧
    (addChildNode newId pid s).history = (saveToHistory s).history ∧
    redo (addChildNode newId pid s) = addChildNode newId pid s ∧
    (addSiblingNode newId sid s).history = (saveToHistory s).history ∧
    redo (addSiblingNode newId sid s) = addSiblingNode newId sid s ∧
    (updateNode nid u s).history = (saveToHistory s).history ∧
    redo (updateNode nid u s) = updateNode nid u s ∧
    (deleteNode nid s).history = (saveToHistory s).history ∧
    redo (deleteNode nid s) = deleteNode nid s ∧
    (updateEdge eid eu s).history = (saveToHistory s).history ∧
    redo (updateEdge eid eu s) = updateEdge eid eu s ∧
    (deleteEdge eid s).history = (saveToHistory s).history ∧
    redo (deleteEdge eid s) = deleteEdge eid s ∧
    (s.selectedNodeIds ≠ [] →
      (updateSelectedNodes u s).history = (saveToHistory s).history ∧
      redo (updateSelectedNodes u s) = updateSelectedNodes u s) ∧
    (s.selectedNodeIds ≠ [] →
      (deleteSelectedNodes s).history = (saveToHistory s).history ∧
      redo (deleteSelectedNodes s) = deleteSelectedNodes s) := by
  have key : ∀ s' : DiagramStore,
      s'.history = (saveToHistory s).history →
      s'.historyIndex = (saveToHistory s).historyIndex →
      redo s' = s' := by
    intro s' h1 h2
    refine redo_noop_of_top s' ?_
    rw [h1, h2]
    exact saveToHistory_topIndex s
  refine ⟨saveToHistory_no_evict s hlen hidx
    , addRootNode_history newId s
    , key _ (addRootNode_history newId s) (addRootNode_index newId s)
    , addChildNode_history newId pid s
    , key _ (addChildNode_history newId pid s) (addChildNode_index newId pid s)
    , addSiblingNode_history newId sid s
    , key _ (addSiblingNode_history newId sid s) (addSiblingNode_index newId sid s)
    , rfl
    , key _ rfl rfl
    , rfl
    , key _ rfl rfl
    , rfl
    , key _ rfl rfl
    , deleteEdge_history eid s
    , key _ (deleteEdge_history eid s) (deleteEdge_index eid s)
    , ?_, ?_⟩
  · intro hsel
    exact ⟨(updateSelectedNodes_history u s hsel).1
      , key _ (updateSelectedNodes_history u s hsel).1
          (updateSelectedNodes_history u s hsel).2⟩
  · intro hsel
    exact ⟨(deleteSelectedNodes_history s hsel).1
      , key _ (deleteSelectedNodes_history s hsel).1
          (deleteSelectedNodes_history s hsel).2⟩

/-- Witness for C8 on a two-snapshot store whose cursor was undone to 0. -/
theorem edit_after_undo_truncates_future_witness :
    undoneStore.history.length ≤ 50 ∧
    undoneStore.historyIndex < (undoneStore.history.length : Int) - 1 ∧
    (saveToHistory undoneStore).history
      = undoneStore.history.take (undoneStore.historyIndex + 1).toNat
        ++ [{ nodes := undoneStore.nodes, edges := undoneStore.edges }] ∧
    redo (addRootNode "r" undoneStore) = addRootNode "r" undoneStore :=
  ⟨by decide, by decide
   , (edit_after_undo_truncates_future undoneStore (by decide) (by decide)
      "r" "p" "p" "n" "e" {} {}).1
   , (edit_after_undo_truncates_future undoneStore (by decide) (by decide)
      "r" "p" "p" "n" "e" {} {}).2.2.1⟩

/-- `saveToHistory` keeps the history within the 50-snapshot cap. -/
theorem saveToHistory_length_le (s : DiagramStore)
    (h : s.history.length ≤ 50) : (saveToHistory s).history.length ≤ 50 := by
  dsimp only [saveToHistory]
  split
  · simp only [List.length_drop, List.length_append, List.length_take,
      List.length_cons, List.length_nil]
    omega
  · rename_i hc
    simp only [List.length_append, List.length_take, List.length_cons,
      List.length_nil, gt_iff_lt, not_lt] at hc ⊢
    omega

/-- Every store operation keeps the history within the 50-snapshot cap. -/
theorem applyOp_history_le (op : StoreOp) (s : DiagramStore)
    (h : s.history.length ≤ 50) : (applyOp op s).history.length ≤ 50 := by
  cases op with
  | setSelectedNode id => exact h
  | setSelectedNodes ids => exact h
  | toggleNodeSelection id => exact h
  | addToSelection ids => exact h
  | clearSelection => exact h
  | addRootNode newId => exact saveToHistory_length_le s h
  | addChildNode newId parentId =>
    rw [show (applyOp (.addChildNode newId parentId) s).history
        = (addChildNode newId parentId s).history from rfl
      , addChildNode_history]
    exact saveToHistory_length_le s h
  | addSiblingNode newId siblingId =>
    rw [show (applyOp (.addSiblingNode newId siblingId) s).history
        = (addSiblingNode newId siblingId s).history from rfl
      , addSiblingNode_history]
    exact saveToHistory_length_le s h
  | updateNode id u => exact saveToHistory_length_le s h
  | updateSelectedNodes u =>
    show (updateSelectedNodes u s).history.length ≤ 50
    dsimp only [updateSelectedNodes]
    split
    · exact h
    · exact saveToHistory_length_le s h
  | deleteNode id => exact saveToHistory_length_le s h
  | deleteSelectedNodes =>
    show (deleteSelectedNodes s).history.length ≤ 50
    dsimp only [deleteSelectedNodes]
    split
    · exact h
    · exact saveToHistory_length_le s h
  | moveSelectedNodes dx dy =>
    show (moveSelectedNodes dx dy s).history.length ≤ 50
    dsimp only [moveSelectedNodes]
    split
    · exact h
    · exact h
  | setSelectedEdge id => exact h
  | updateEdge id u => exact saveToHistory_length_le s h
  | deleteEdge id =>
    rw [show (applyOp (.deleteEdge id) s).history
        = (deleteEdge id s).history from rfl
      , deleteEdge_history]
    exact saveToHistory_length_le s h
  | setNodePositions ps => exact h
  | setDiagramName name => exact h
  | clearDiagram => exact Nat.zero_le 50
  | loadDiagram nodes edges name => exact Nat.zero_le 50
  | undo =>
    show (undo s).history.length ≤ 50
    dsimp only [undo]
    split
    · split
      · exact h
      · exact h
    · exact h
  | redo =>
    show (redo s).history.length ≤ 50
    dsimp only [redo]
    split
    · split
      · exact h
      · exact h
    · exact h

/-- Any operation sequence keeps a capped history capped. -/
theorem applyOps_history_le (ops : List StoreOp) :
    ∀ s : DiagramStore, s.history.length ≤ 50 →
      (applyOps ops s).history.length ≤ 50 := by
  induction ops with
  | nil => intro s h; exact h
  | cons op rest ih => intro s h; exact ih _ (applyOp_history_le op s h)

/-- C9: from the empty store, any sequence of operations leaves at most
50 history snapshots; and when an edit would exceed the cap (full
history, cursor on the newest entry), the oldest snapshot is evicted
and the cursor still points at the newest entry. -/
theorem history_capped_at_50 (ops : List StoreOp) (s : DiagramStore)
    (hfull : s.history.length = 50) (hcur : s.historyIndex = 49) :
    (applyOps ops emptyStore).history.length ≤ 50 ∧
    (saveToHistory s).history
      = s.history.drop 1 ++ [{ nodes := s.nodes, edges := s.edges }] ∧
    (saveToHistory s).history.length = 50 ∧
    (saveToHistory s).historyIndex
      = ((saveToHistory s).history.length : Int) - 1 := by
  have htake : s.history.take (s.historyIndex + 1).toNat = s.history := by
    apply List.take_of_length_le
    omega
  have hevict : (saveToHistory s).history
      = s.history.drop 1 ++ [{ nodes := s.nodes, edges := s.edges }] := by
    have hc : (s.history.take (s.historyIndex + 1).toNat
        ++ [{ nodes := s.nodes, edges := s.edges : HistoryState }]).length > 50 := by
      rw [htake]
      simp only [List.length_append, List.length_cons, List.length_nil]
      omega
    dsimp only [saveToHistory]
    rw [if_pos hc, htake]
    cases hh : s.history with
    | nil => rw [hh] at hfull; simp at hfull
    | cons h0 rest => simp
  refine ⟨applyOps_history_le ops emptyStore (by decide), hevict, ?_,
    saveToHistory_topIndex s⟩
  rw [hevict]
  simp only [List.length_append, List.length_drop, List.length_cons,
    List.length_nil, hfull]

/-- Witness for C9 at a full 50-snapshot store with the cursor on top. -/
theorem history_capped_at_50_witness :
    cappedStore.history.length = 50 ∧
    (saveToHistory cappedStore).history
      = cappedStore.history.drop 1
        ++ [{ nodes := cappedStore.nodes, edges := cappedStore.edges }] ∧
    (saveToHistory cappedStore).history.length = 50 ∧
    (applyOps [StoreOp.addRootNode "r"] emptyStore).history.length ≤ 50 :=
  ⟨by simp [cappedStore]
   , (history_capped_at_50 [StoreOp.addRootNode "r"] cappedStore
      (by simp [cappedStore]) rfl).2.1
   , (history_capped_at_50 [StoreOp.addRootNode "r"] cappedStore
      (by simp [cappedStore]) rfl).2.2.1
   , (history_capped_at_50 [StoreOp.addRootNode "r"] cappedStore
      (by simp [cappedStore]) rfl).1⟩

/-- Unfolding `deriveEdges` over a cons cell. -/
theorem deriveEdges_cons (n : DiagramNode) (l : List DiagramNode) :
    deriveEdges (n :: l)
      = (if n.parentId ≠ none then
          [{ id := edgeIdOf n, source := n.parentId.getD "", target := n.id
             type := .smoothstep, style := DEFAULT_EDGE_STYLE }] else [])
        ++ deriveEdges l := by
  by_cases h : n.parentId = none
  · simp [deriveEdges, List.filter_cons, h, edgeIdOf]
  · simp [deriveEdges, List.filter_cons, h, edgeIdOf]

/-- Membership in the derived edge list. -/
theorem mem_deriveEdges (e : DiagramEdge) (l : List DiagramNode) :
    e ∈ deriveEdges l ↔ ∃ n, n ∈ l ∧ n.parentId ≠ none ∧
      e = { id := edgeIdOf n, source := n.parentId.getD "", target := n.id
            type := .smoothstep, style := DEFAULT_EDGE_STYLE } := by
  simp only [deriveEdges, List.mem_map, List.mem_filter, edgeIdOf,
    decide_eq_true_eq]
  constructor
  · rintro ⟨n, ⟨hn, hp⟩, rfl⟩
    exact ⟨n, hn, hp, rfl⟩
  · rintro ⟨n, hn, hp, rfl⟩
    exact ⟨n, ⟨hn, hp⟩, rfl⟩

/-- Detaching the node(s) whose id is `m.id` removes exactly the derived
edges whose id is `edgeIdOf m`, provided edge ids identify the detached
node among parented nodes. -/
theorem deriveEdges_detach (m : DiagramNode) (nodes : List DiagramNode)
    (H : ∀ n ∈ nodes, n.parentId ≠ none →
      ((n.id = m.id) ↔ edgeIdOf n = edgeIdOf m)) :
    deriveEdges (nodes.map (fun n =>
        if n.id = m.id then { n with parentId := none } else n))
      = (deriveEdges nodes).filter (fun ed => ed.id ≠ edgeIdOf m) := by
  induction nodes with
  | nil => rfl
  | cons a t ih =>
    have Ha := H a (List.mem_cons_self a t)
    have ih' := ih (fun n hn => H n (List.mem_cons_of_mem a hn))
    rw [List.map_cons, deriveEdges_cons, deriveEdges_cons, List.filter_append]
    by_cases hpa : a.parentId = none
    · by_cases hida : a.id = m.id
      · simp [hpa, hida, ih']
      · simp [hpa, hida, ih']
    · by_cases hida : a.id = m.id
      · have heq : edgeIdOf a = edgeIdOf m := (Ha hpa).mp hida
        simp [hpa, hida, heq, ih']
      · have hne : edgeIdOf a ≠ edgeIdOf m := fun hcon => hida ((Ha hpa).mpr hcon)
        simp [hpa, hida, hne, ih']

/-- Filtering out a found derived edge matches detaching its target,
under uniqueness of node ids and of derived edge ids. -/
theorem detach_filter_eq (nodes : List DiagramNode) (eid : String)
    (edge : DiagramEdge)
    (hfind : (deriveEdges nodes).find? (fun e => e.id = eid) = some edge)
    (hid : ∀ n ∈ nodes, ∀ m ∈ nodes, n.id = m.id → n = m)
    (hedge : ∀ n ∈ nodes, ∀ m ∈ nodes, n.parentId ≠ none → m.parentId ≠ none →
      edgeIdOf n = edgeIdOf m → n = m) :
    (deriveEdges nodes).filter (fun e => e.id ≠ eid)
      = deriveEdges (nodes.map (fun n =>
          if n.id = edge.target then { n with parentId := none } else n)) := by
  have hEdgeId : edge.id = eid := by
    have h := List.find?_some hfind
    simpa using h
  have hEdgeMem : edge ∈ deriveEdges nodes := List.mem_of_find?_eq_some hfind
  obtain ⟨m, hm, hmp, hEdgeEq⟩ := (mem_deriveEdges edge nodes).mp hEdgeMem
  have htarget : edge.target = m.id := by rw [hEdgeEq]
  have hidm : edge.id = edgeIdOf m := by rw [hEdgeEq]
  have H : ∀ n ∈ nodes, n.parentId ≠ none →
      ((n.id = m.id) ↔ edgeIdOf n = edgeIdOf m) := by
    intro n hn hnp
    constructor
    · intro h
      rw [hid n hn m hm h]
    · intro h
      rw [hedge n hn m hm hnp hmp h]
  rw [htarget, deriveEdges_detach m nodes H]
  have hpred : ∀ e : DiagramEdge, (e.id ≠ eid) = (e.id ≠ edgeIdOf m) := by
    intro e
    rw [← hEdgeId, hidm]
  simp only [hpred]

/-- C1 counterexample: in a consistent two-node store, `updateNode` with
a `parentId` update does not recompute edges: the stored edge survives
while the derived set is empty. -/
theorem update_node_leaves_stale_edges :
    storeAB.edges = deriveEdges storeAB.nodes ∧
    (updateNode "b" detachUpdate storeAB).edges
      ≠ deriveEdges (updateNode "b" detachUpdate storeAB).nodes :=
  ⟨rfl, by decide⟩

/-- C1 (amended): provided edges currently equal the derived set (and
node ids and derived edge ids are collision-free, which `deleteEdge`'s
id-based filtering needs), the correspondence `edges = deriveEdges
nodes` holds after `addRootNode`, `addChildNode`, `addSiblingNode`,
`deleteNode`, `deleteSelectedNodes` and `deleteEdge`.  The update
operations (`updateNode`, `updateSelectedNodes`, `updateEdge`) do not
recompute edges and can break the correspondence, per the
counterexample. -/
theorem edges_derived_after_structural_ops (s : DiagramStore)
    (newId pid sid did eid : String)
    (hinv : s.edges = deriveEdges s.nodes)
    (hid : ∀ n ∈ s.nodes, ∀ m ∈ s.nodes, n.id = m.id → n = m)
    (hedge : ∀ n ∈ s.nodes, ∀ m ∈ s.nodes, n.parentId ≠ none →
      m.parentId ≠ none → edgeIdOf n = edgeIdOf m → n = m) :
    (addRootNode newId s).edges = deriveEdges (addRootNode newId s).nodes ∧
    (addChildNode newId pid s).edges
      = deriveEdges (addChildNode newId pid s).nodes ∧
    (addSiblingNode newId sid s).edges
      = deriveEdges (addSiblingNode newId sid s).nodes ∧
    (deleteNode did s).edges = deriveEdges (deleteNode did s).nodes ∧
    (deleteSelectedNodes s).edges
      = deriveEdges (deleteSelectedNodes s).nodes ∧
    (deleteEdge eid s).edges = deriveEdges (deleteEdge eid s).nodes := by
  refine ⟨rfl, ?_, ?_, rfl, ?_, ?_⟩
  · dsimp only [addChildNode]
    cases getNodeById (saveToHistory s) pid with
    | none => exact hinv
    | some parent => rfl
  · dsimp only [addSiblingNode]
    cases getNodeById (saveToHistory s) sid with
    | none => exact hinv
    | some sibling => rfl
  · dsimp only [deleteSelectedNodes]
    split
    · exact hinv
    · rfl
  · dsimp only [deleteEdge]
    cases hfind : (saveToHistory s).edges.find? (fun e => e.id = eid) with
    | none => exact hinv
    | some edge =>
      show s.edges.filter (fun e => e.id ≠ eid)
        = deriveEdges (s.nodes.map (fun n =>
            if n.id = edge.target then { n with parentId := none } else n))
      have hfind' : (deriveEdges s.nodes).find? (fun e => e.id = eid)
          = some edge := by
        rw [← hinv]
        exact hfind
      rw [hinv]
      exact detach_filter_eq s.nodes eid edge hfind' hid hedge

/-- Witness for C1 on the consistent two-node store. -/
theorem edges_derived_after_structural_ops_witness :
    storeAB.edges = deriveEdges storeAB.nodes ∧
    (deleteEdge "edge-a-b" storeAB).edges
      = deriveEdges (deleteEdge "edge-a-b" storeAB).nodes ∧
    (addRootNode "r" storeAB).edges = deriveEdges (addRootNode "r" storeAB).nodes :=
  ⟨rfl
   , (edges_derived_after_structural_ops storeAB "r" "p" "p" "d" "edge-a-b"
      rfl (by decide) (by decide)).2.2.2.2.2
   , (edges_derived_after_structural_ops storeAB "r" "p" "p" "d" "edge-a-b"
      rfl (by decide) (by decide)).1⟩

/-- Child-ward reachability is transitive. -/
theorem desc_trans {nodes : List DiagramNode} {a b c : String}
    (h1 : Desc nodes a b) (h2 : Desc nodes b c) : Desc nodes a c := by
  induction h2 with
  | refl => exact h1
  | step n _ hn hp ih => exact Desc.step n ih hn hp

/-- Everything the fuel-bounded walk collects is reachable (any fuel). -/
theorem collect_sound (nodes : List DiagramNode) :
    ∀ (fuel : Nat) (a x : String),
      x ∈ collectDescendants nodes fuel a → Desc nodes a x := by
  intro fuel
  induction fuel with
  | zero =>
    intro a x hx
    simp only [collectDescendants, List.mem_singleton] at hx
    subst hx
    exact Desc.refl
  | succ f ih =>
    intro a x hx
    simp only [collectDescendants, List.mem_cons] at hx
    rcases hx with rfl | hx
    · exact Desc.refl
    · rw [List.mem_flatten] at hx
      obtain ⟨l, hl, hxl⟩ := hx
      rw [List.mem_map] at hl
      obtain ⟨c, hc, rfl⟩ := hl
      have hcm : c ∈ nodes ∧ c.parentId = some a := by
        have h := List.mem_filter.mp hc
        simpa using h
      exact desc_trans (Desc.step c Desc.refl hcm.1 hcm.2) (ih c.id x hxl)

/-- A counted path extends by one step at its far end. -/
theorem descN_snoc {nodes : List DiagramNode} {a b : String} {k : Nat}
    (h : DescN nodes a b k) (n : DiagramNode) (hn : n ∈ nodes)
    (hp : n.parentId = some b) : DescN nodes a n.id (k + 1) := by
  induction h with
  | refl a => exact DescN.step n hn hp (DescN.refl n.id)
  | step m hm hpm _ ih => exact DescN.step m hm hpm (ih hp)

/-- Every reachability fact has a counted derivation. -/
theorem descN_of_desc {nodes : List DiagramNode} {a x : String}
    (h : Desc nodes a x) : ∃ k, DescN nodes a x k := by
  induction h with
  | refl => exact ⟨0, DescN.refl a⟩
  | step n _ hn hp ih =>
    obtain ⟨k, hk⟩ := ih
    exact ⟨k + 1, descN_snoc hk n hn hp⟩

/-- Under a rank certificate, a counted path either is trivial or ends
at a node of the list whose rank bounds the path length. -/
theorem descN_rank_bound {nodes : List DiagramNode} (r : String → Nat)
    (bound : Nat) (hr : ∀ n ∈ nodes, parentRankOk r bound n = true) :
    ∀ {a x : String} {k : Nat}, DescN nodes a x k →
      (k = 0 ∧ x = a) ∨ ∃ m, m ∈ nodes ∧ m.id = x ∧ r a + k ≤ r x ∧ r x ≤ bound := by
  intro a x k h
  induction h with
  | refl a => exact Or.inl ⟨rfl, rfl⟩
  | step n hn hp h' ih =>
    have hok := hr n hn
    simp only [parentRankOk, hp, Bool.and_eq_true, decide_eq_true_eq] at hok
    rcases ih with ⟨hk0, hxa⟩ | ⟨m, hm, hmx, hle, hbx⟩
    · subst hk0
      subst hxa
      exact Or.inr ⟨n, hn, rfl, by omega, hok.2⟩
    · exact Or.inr ⟨m, hm, hmx, by omega, hbx⟩

/-- With fuel at least the path length, the walk reaches the target. -/
theorem collect_complete (nodes : List DiagramNode) :
    ∀ {a x : String} {k : Nat} (fuel : Nat), DescN nodes a x k → k ≤ fuel →
      x ∈ collectDescendants nodes fuel a := by
  intro a x k fuel h
  induction h generalizing fuel with
  | refl a =>
    intro _
    cases fuel with
    | zero => simp [collectDescendants]
    | succ f => simp [collectDescendants]
  | step n hn hp h' ih =>
    intro hk
    cases fuel with
    | zero => omega
    | succ f =>
      have hx := ih f (by omega)
      simp only [collectDescendants, List.mem_cons]
      right
      rw [List.mem_flatten]
      refine ⟨collectDescendants nodes f n.id, ?_, hx⟩
      rw [List.mem_map]
      refine ⟨n, ?_, rfl⟩
      simp [getChildNodes, List.mem_filter, hn, hp]

/-- On a rank-certified (forest-shaped) node list, the walk with fuel
`nodes.length` collects exactly the child-ward reachable ids. -/
theorem collect_iff (nodes : List DiagramNode) (r : String → Nat)
    (hr : ∀ n ∈ nodes, parentRankOk r nodes.length n = true)
    (a x : String) :
    x ∈ collectDescendants nodes nodes.length a ↔ Desc nodes a x := by
  constructor
  · exact collect_sound nodes nodes.length a x
  · intro h
    obtain ⟨k, hk⟩ := descN_of_desc h
    have hb := descN_rank_bound r nodes.length hr hk
    have hkle : k ≤ nodes.length := by
      rcases hb with ⟨h0, _⟩ | ⟨m, _, _, hle, hbx⟩ <;> omega
    exact collect_complete nodes nodes.length hk hkle

/-- C3: on a forest-shaped node list — formalised as the existence of a
rank function that strictly increases along parent-to-child links and is
bounded by the node count, which every finite forest admits (tree depth)
and no parent cycle does — `deleteNode did` removes exactly the nodes
child-ward reachable from `did` (itself and all descendants) and no
others; no remaining node's `parentId` references a removed node's id;
edges are re-derived from the remaining nodes; and both selection fields
are cleared of removed ids. -/
theorem delete_node_cascade (s : DiagramStore) (did : String)
    (r : String → Nat)
    (hr : ∀ n ∈ s.nodes, parentRankOk r s.nodes.length n = true) :
    (∀ x, x ∈ collectDescendants s.nodes s.nodes.length did
      ↔ Desc s.nodes did x) ∧
    (∀ n : DiagramNode, n ∈ (deleteNode did s).nodes
      ↔ n ∈ s.nodes ∧ ¬ Desc s.nodes did n.id) ∧
    (∀ n ∈ (deleteNode did s).nodes, ∀ p, n.parentId = some p →
      ∀ m ∈ s.nodes, m.id = p → m ∈ (deleteNode did s).nodes) ∧
    ((deleteNode did s).edges = deriveEdges (deleteNode did s).nodes) ∧
    (∀ sid, s.selectedNodeId = some sid → Desc s.nodes did sid →
      (deleteNode did s).selectedNodeId = none) ∧
    (∀ x ∈ (deleteNode did s).selectedNodeIds, ¬ Desc s.nodes did x) := by
  have hiff : ∀ x, x ∈ collectDescendants s.nodes s.nodes.length did
      ↔ Desc s.nodes did x := fun x => collect_iff s.nodes r hr did x
  have hcont : ∀ y : String,
      ((collectDescendants s.nodes s.nodes.length did).contains y = true)
        ↔ Desc s.nodes did y := by
    intro y
    rw [List.elem_iff]
    exact hiff y
  have hnodes : (deleteNode did s).nodes
      = s.nodes.filter (fun n =>
          ¬ (collectDescendants s.nodes s.nodes.length did).contains n.id) := rfl
  have hmem : ∀ n : DiagramNode, n ∈ (deleteNode did s).nodes
      ↔ n ∈ s.nodes ∧ ¬ Desc s.nodes did n.id := by
    intro n
    rw [hnodes, List.mem_filter]
    simp only [decide_eq_true_eq]
    constructor
    · rintro ⟨hn, hpred⟩
      exact ⟨hn, fun hdesc => hpred ((hcont n.id).mpr hdesc)⟩
    · rintro ⟨hn, hndesc⟩
      exact ⟨hn, fun hc => hndesc ((hcont n.id).mp hc)⟩
  refine ⟨hiff, hmem, ?_, rfl, ?_, ?_⟩
  · intro n hn p hp m hm hmid
    by_contra hmout
    have hmdesc : Desc s.nodes did m.id := by
      by_contra hnd
      exact hmout ((hmem m).mpr ⟨hm, hnd⟩)
    have hpdesc : Desc s.nodes did p := by
      rw [← hmid]
      exact hmdesc
    have hn' := (hmem n).mp hn
    exact hn'.2 (Desc.step n hpdesc hn'.1 hp)
  · intro sid hsid hdesc
    have hsel : (deleteNode did s).selectedNodeId
        = match s.selectedNodeId with
          | some sid' =>
            if (collectDescendants s.nodes s.nodes.length did).contains sid'
              then none else some sid'
          | none => none := rfl
    rw [hsel, hsid]
    show (if (collectDescendants s.nodes s.nodes.length did).contains sid = true
      then none else some sid) = none
    rw [if_pos ((hcont sid).mpr hdesc)]
  · intro x hx
    have hsel : (deleteNode did s).selectedNodeIds
        = s.selectedNodeIds.filter (fun nid =>
            ¬ (collectDescendants s.nodes s.nodes.length did).contains nid) := rfl
    rw [hsel, List.mem_filter] at hx
    intro hdesc
    have hpred := hx.2
    simp only [decide_eq_true_eq] at hpred
    exact hpred ((hcont x).mpr hdesc)

/-- Witness for C3 on the two-node store, root deletion cascading to the
child. -/
theorem delete_node_cascade_witness :
    (∀ n ∈ storeAB.nodes, parentRankOk rankAB storeAB.nodes.length n = true) ∧
    ("b" ∈ collectDescendants storeAB.nodes storeAB.nodes.length "a"
      ↔ Desc storeAB.nodes "a" "b") ∧
    ((deleteNode "a" storeAB).edges = deriveEdges (deleteNode "a" storeAB).nodes) :=
  ⟨by decide
   , (delete_node_cascade storeAB "a" rankAB (by decide)).1 "b"
   , (delete_node_cascade storeAB "a" rankAB (by decide)).2.2.2.1⟩
